import Mathlib

/-!
Verification of `cleanup_opengl.py`, a one-pass conditional-block filter
that removes `#ifndef USE_VULKAN` blocks from C source lines and keeps
`#ifdef USE_VULKAN` blocks, plus its directory-walking rewrite driver.

Lines are modelled as Lean `String`s (Python file I/O is abstracted to the
list of lines read by `readlines`).  Python's unbounded `int` counters are
modelled as `Int`.  Python string primitives used by the script
(`str.strip`, `str.startswith`, the `in` substring test, `str.endswith`)
are given explicit executable models over `List Char`; `str.strip`
strips the ASCII whitespace characters, which covers every character
occurring in the repository's source files.
-/

namespace Cleanup

/-- The ASCII whitespace characters stripped by Python's `str.strip()`. -/
def isPySpace (c : Char) : Bool :=
  c == ' ' || c == '\t' || c == '\n' || c == '\r' || c == '\x0b' || c == '\x0c'

/-- `listPre pat l` : the character list `pat` is an initial segment of `l`
(model of `str.startswith`). -/
def listPre : List Char → List Char → Bool
  | [], _ => true
  | _ :: _, [] => false
  | a :: pat, b :: l => a == b && listPre pat l

/-- `listSub pat l` : `pat` occurs contiguously somewhere inside `l`
(model of Python's `pat in l` substring test). -/
def listSub (pat : List Char) : List Char → Bool
  | [] => listPre pat []
  | l@(_ :: t) => listPre pat l || listSub pat t

/-- Model of Python `str.strip()` (ASCII whitespace). -/
def pyStrip (s : String) : String :=
  ⟨((s.data.dropWhile isPySpace).reverse.dropWhile isPySpace).reverse⟩

/-- Model of `stripped.startswith('#')`. -/
def hashFirst (s : String) : Bool :=
  listPre ['#'] s.data

/-- Model of Python's `tok in s` substring test on strings. -/
def strContains (s tok : String) : Bool :=
  listSub tok.data s.data

/-- One iteration of the `while` loop of `process_file`
(`src/cleanup_opengl.py` lines 22-68): given the current counters and the
current line, returns the emitted line (if any) and the updated counters.
The branch structure mirrors the Python `if`/`elif` chain exactly. -/
def lineStep (skip keep : Int) (line : String) : Option String × Int × Int :=
  if hashFirst (pyStrip line) then
    if strContains (pyStrip line) "#ifndef USE_VULKAN" then
      (none, skip + 1, keep)
    else if strContains (pyStrip line) "#ifdef USE_VULKAN" then
      (none, skip, keep + 1)
    else if strContains (pyStrip line) "#else" ∧ (0 < skip ∨ 0 < keep) then
      if 0 < skip then (none, skip - 1, keep + 1)
      else if 0 < keep then (none, skip + 1, keep - 1)
      else (none, skip, keep)
    else if strContains (pyStrip line) "#endif" ∧ (0 < skip ∨ 0 < keep) then
      if 0 < skip then (none, skip - 1, keep)
      else if 0 < keep then (none, skip, keep - 1)
      else (none, skip, keep)
    else
      if skip = 0 then (some line, skip, keep) else (none, skip, keep)
  else
    if skip = 0 then (some line, skip, keep) else (none, skip, keep)

/-- The whole loop of `process_file` run from counters `(skip, keep)`:
returns the emitted lines together with the final counters. -/
def processFull (skip keep : Int) : List String → List String × Int × Int
  | [] => ([], skip, keep)
  | l :: rest =>
    let s := lineStep skip keep l
    let r := processFull s.2.1 s.2.2 rest
    (s.1.toList ++ r.1, r.2)

/-- `process_file` (`src/cleanup_opengl.py` lines 11-70), with file reading
abstracted to the list of lines: both counters start at 0 and the list of
emitted lines is returned. -/
def process_file (lines : List String) : List String :=
  (processFull 0 0 lines).1

/-- The counters of `process_file`'s loop after processing the given lines,
starting from `(skip, keep)`. -/
def linesState (skip keep : Int) (lines : List String) : Int × Int :=
  (processFull skip keep lines).2

/-- The per-file rewrite step of `clean_renderer_files`
(`src/cleanup_opengl.py` lines 93-105): the file's original lines go in;
the resulting on-disk lines and whether the file was written (and hence
reported/counted as modified) come out. -/
def driveFile (original : List String) : List String × Bool :=
  let processed := process_file original
  if processed ≠ original then (processed, true) else (original, false)

/-- A directory tree: a list of file names plus a list of named
subdirectory trees.  This is the filesystem abstraction fed to the model
of `os.walk`. -/
inductive Tree where
  | node (files : List String) (subs : List (String × Tree))

/-- Model of `str.endswith(('.c', '.h'))`. -/
def isCandidateName (f : String) : Bool :=
  listPre (".c".data.reverse) f.data.reverse || listPre (".h".data.reverse) f.data.reverse

mutual
/-- Model of `os.walk` (top-down): yields `(root, files)` for the directory
at path `p`, then recursively for each subdirectory, joining paths with a
separator. -/
def walk (p : String) : Tree → List (String × List String)
  | .node fs subs => (p, fs) :: walkSubs p subs

def walkSubs (p : String) : List (String × Tree) → List (String × List String)
  | [] => []
  | (n, t) :: rest => walk (p ++ "/" ++ n) t ++ walkSubs p rest
end

mutual
/-- The tree with every subdirectory whose full path contains `"vulkan"`
removed outright, together with all files beneath it. -/
def prune (p : String) : Tree → Tree
  | .node fs subs => .node fs (pruneSubs p subs)

def pruneSubs (p : String) : List (String × Tree) → List (String × Tree)
  | [] => []
  | (n, t) :: rest =>
    if strContains (p ++ "/" ++ n) "vulkan" then pruneSubs p rest
    else (n, prune (p ++ "/" ++ n) t) :: pruneSubs p rest
end

/-- The candidate paths of one `(root, files)` entry of the walk:
files ending in `.c` or `.h`, joined to the root. -/
def entryFiles (e : String × List String) : List String :=
  (e.2.filter isCandidateName).map (fun f => e.1 ++ "/" ++ f)

/-- The root-skipping test of the walk loop: the entry survives the
`if 'vulkan' in root: continue` check (`src/cleanup_opengl.py` line 82). -/
def keepEntry (e : String × List String) : Bool :=
  !strContains e.1 "vulkan"

/-- The `files_to_process` list built by `clean_renderer_files`
(`src/cleanup_opengl.py` lines 80-88): walk the tree rooted at `p`, skip
every root whose path contains `'vulkan'`, and collect the `.c`/`.h`
files of the remaining roots. -/
def candidates (p : String) (t : Tree) : List String :=
  ((walk p t).filter keepEntry).flatMap entryFiles

/-- `os.path.join(base_path, 'src', 'engine', 'renderer')`
(`src/cleanup_opengl.py` line 75). -/
def rendererPath (base : String) : String :=
  base ++ "/src/engine/renderer"

/-- A line whose trimmed content starts with `'#'` and contains the
open-discard token: classified by the first branch of the `if` chain. -/
def isOpenDiscardLine (l : String) : Bool :=
  hashFirst (pyStrip l) && strContains (pyStrip l) "#ifndef USE_VULKAN"

/-- A line classified by the second branch of the `if` chain (open-retain):
its trimmed content starts with `'#'`, does not contain the open-discard
token, and contains the open-retain token. -/
def isOpenRetainLine (l : String) : Bool :=
  hashFirst (pyStrip l) && !strContains (pyStrip l) "#ifndef USE_VULKAN" &&
    strContains (pyStrip l) "#ifdef USE_VULKAN"

/-- A line that matches none of the four recognized directive patterns:
either its trimmed content does not start with `'#'`, or it contains none
of the four tokens. -/
def isPlainLine (l : String) : Bool :=
  !hashFirst (pyStrip l) ||
    (!strContains (pyStrip l) "#ifndef USE_VULKAN" &&
      !strContains (pyStrip l) "#ifdef USE_VULKAN" &&
      !strContains (pyStrip l) "#else" &&
      !strContains (pyStrip l) "#endif")

/-- A line classified by the `#endif` branch of the `if` chain when a
counter is positive: trimmed content starts with `'#'`, contains neither
open token nor the else token, and contains the end token. -/
def isEndifLine (l : String) : Bool :=
  hashFirst (pyStrip l) && !strContains (pyStrip l) "#ifndef USE_VULKAN" &&
    !strContains (pyStrip l) "#ifdef USE_VULKAN" &&
    !strContains (pyStrip l) "#else" && strContains (pyStrip l) "#endif"

theorem lineStep_fst (s k : Int) (l : String) :
    (lineStep s k l).1 = none ∨
      ((lineStep s k l).1 = some l ∧
        (hashFirst (pyStrip l) = true →
          strContains (pyStrip l) "#ifndef USE_VULKAN" = false ∧
          strContains (pyStrip l) "#ifdef USE_VULKAN" = false)) := by
  unfold lineStep
  (repeat' split) <;>
    first
      | exact Or.inl rfl
      | · refine Or.inr ⟨rfl, ?_⟩
          intro hh
          simp_all

theorem processFull_sublist (L : List String) :
    ∀ s k : Int, ((processFull s k L).1).Sublist L := by
  induction L with
  | nil => intro s k; simp [processFull]
  | cons l rest ih =>
    intro s k
    simp only [processFull]
    rcases lineStep_fst s k l with h | ⟨h, -⟩
    · rw [h]
      simpa using (ih _ _).cons l
    · rw [h]
      simpa using (ih _ _).cons₂ l

theorem processFull_no_open (L : List String) :
    ∀ s k : Int, ∀ l ∈ (processFull s k L).1,
      hashFirst (pyStrip l) = true →
      strContains (pyStrip l) "#ifndef USE_VULKAN" = false ∧
      strContains (pyStrip l) "#ifdef USE_VULKAN" = false := by
  induction L with
  | nil => intro s k l hl; simp [processFull] at hl
  | cons x rest ih =>
    intro s k l hl hh
    simp only [processFull, List.mem_append] at hl
    rcases hl with hl | hl
    · rcases lineStep_fst s k x with h | ⟨h, hp⟩
      · rw [h] at hl; simp at hl
      · rw [h] at hl
        simp at hl
        subst hl
        exact hp hh
    · exact ih _ _ l hl hh

theorem lineStep_zero (l : String)
    (h1 : strContains (pyStrip l) "#ifndef USE_VULKAN" = false)
    (h2 : strContains (pyStrip l) "#ifdef USE_VULKAN" = false) :
    lineStep 0 0 l = (some l, 0, 0) := by
  by_cases hh : hashFirst (pyStrip l) = true
  · simp [lineStep, hh, h1, h2]
  · simp [lineStep, hh]

theorem processFull_id (L : List String)
    (h : ∀ l ∈ L, hashFirst (pyStrip l) = true →
      strContains (pyStrip l) "#ifndef USE_VULKAN" = false ∧
      strContains (pyStrip l) "#ifdef USE_VULKAN" = false) :
    processFull 0 0 L = (L, 0, 0) := by
  induction L with
  | nil => rfl
  | cons x rest ih =>
    have hx := h x (by simp)
    have hstep : lineStep 0 0 x = (some x, 0, 0) := by
      by_cases hh : hashFirst (pyStrip x) = true
      · obtain ⟨h1, h2⟩ := hx hh
        exact lineStep_zero x h1 h2
      · simp [lineStep, hh]
    have hrest := ih (fun l hl => h l (by simp [hl]))
    simp [processFull, hstep, hrest]

theorem lineStep_nonneg (s k : Int) (l : String) (hs : 0 ≤ s) (hk : 0 ≤ k) :
    0 ≤ (lineStep s k l).2.1 ∧ 0 ≤ (lineStep s k l).2.2 := by
  unfold lineStep
  (repeat' split) <;> refine ⟨?_, ?_⟩ <;> simp_all <;> omega

theorem processFull_nonneg (L : List String) :
    ∀ s k : Int, 0 ≤ s → 0 ≤ k →
      0 ≤ (processFull s k L).2.1 ∧ 0 ≤ (processFull s k L).2.2 := by
  induction L with
  | nil => intro s k hs hk; simpa [processFull] using ⟨hs, hk⟩
  | cons x rest ih =>
    intro s k hs hk
    obtain ⟨h1, h2⟩ := lineStep_nonneg s k x hs hk
    simpa [processFull] using ih _ _ h1 h2

theorem lineStep_plain (s k : Int) (l : String) (hs : s ≠ 0)
    (h : isPlainLine l = true) : lineStep s k l = (none, s, k) := by
  unfold isPlainLine at h
  by_cases hh : hashFirst (pyStrip l) = true
  · simp only [hh, Bool.not_true, Bool.false_or, Bool.and_eq_true,
      Bool.not_eq_true'] at h
    obtain ⟨⟨⟨h1, h2⟩, h3⟩, h4⟩ := h
    simp [lineStep, hh, h1, h2, h3, h4, hs]
  · simp [lineStep, hh, hs]

theorem processFull_plain (bs : List String) :
    ∀ s k : Int, s ≠ 0 → (∀ b ∈ bs, isPlainLine b = true) →
      ∀ rest, processFull s k (bs ++ rest) = processFull s k rest := by
  induction bs with
  | nil => intro s k _ _ rest; simp
  | cons b bs ih =>
    intro s k hs h rest
    have hb := lineStep_plain s k b hs (h b (by simp))
    have := ih s k hs (fun x hx => h x (by simp [hx])) rest
    simp [processFull, hb, this]

theorem lineStep_openDiscard (s k : Int) (l : String)
    (h : isOpenDiscardLine l = true) : lineStep s k l = (none, s + 1, k) := by
  unfold isOpenDiscardLine at h
  obtain ⟨h1, h2⟩ := Bool.and_eq_true _ _ |>.mp h
  simp [lineStep, h1, h2]

theorem lineStep_openRetain (s k : Int) (l : String)
    (h : isOpenRetainLine l = true) : lineStep s k l = (none, s, k + 1) := by
  unfold isOpenRetainLine at h
  simp only [Bool.and_eq_true, Bool.not_eq_true'] at h
  obtain ⟨⟨h1, h2⟩, h3⟩ := h
  simp [lineStep, h1, h2, h3]

theorem listPre_append (pat : List Char) :
    ∀ l r, listPre pat l = true → listPre pat (l ++ r) = true := by
  induction pat with
  | nil => intro l r _; rfl
  | cons a pat ih =>
    intro l r h
    cases l with
    | nil => simp [listPre] at h
    | cons b bs =>
      simp only [listPre, Bool.and_eq_true] at h
      simpa only [List.cons_append, listPre, Bool.and_eq_true]
        using ⟨h.1, ih bs r h.2⟩

theorem listSub_nil_pat : ∀ l, listSub [] l = true := by
  intro l; cases l <;> simp [listSub, listPre]

theorem listSub_append (pat : List Char) :
    ∀ l r, listSub pat l = true → listSub pat (l ++ r) = true := by
  intro l
  induction l with
  | nil =>
    intro r h
    cases pat with
    | nil => simpa using listSub_nil_pat r
    | cons a as => simp [listSub, listPre] at h
  | cons c t ih =>
    intro r h
    simp only [listSub, Bool.or_eq_true] at h
    rcases h with h | h
    · simpa only [List.cons_append, listSub, Bool.or_eq_true]
        using Or.inl (listPre_append pat (c :: t) r h)
    · simpa only [List.cons_append, listSub, Bool.or_eq_true]
        using Or.inr (ih r h)

theorem strContains_append (s r tok : String)
    (h : strContains s tok = true) : strContains (s ++ r) tok = true := by
  unfold strContains at h ⊢
  rw [String.data_append]
  exact listSub_append _ _ _ h

mutual
/-- Every walk entry beneath a root whose path already contains `"vulkan"`
is filtered out by the `'vulkan' in root` check. -/
theorem walk_vulkan_filter (p : String) (hp : strContains p "vulkan" = true) :
    (t : Tree) → (walk p t).filter keepEntry = []
  | .node fs subs => by
    simp [walk, List.filter_cons, keepEntry, hp,
      walkSubs_vulkan_filter p hp subs]

theorem walkSubs_vulkan_filter (p : String)
    (hp : strContains p "vulkan" = true) :
    (subs : List (String × Tree)) → (walkSubs p subs).filter keepEntry = []
  | [] => by simp [walkSubs]
  | (n, t) :: rest => by
    have h1 : strContains (p ++ "/" ++ n) "vulkan" = true :=
      strContains_append _ _ _ (strContains_append _ _ _ hp)
    simp [walkSubs, List.filter_append, walk_vulkan_filter (p ++ "/" ++ n) h1 t,
      walkSubs_vulkan_filter p hp rest]
end

mutual
/-- Removing every `"vulkan"` subtree from the tree does not change the
walk entries that survive the `'vulkan' in root` check. -/
theorem prune_walk_filter (p : String) : (t : Tree) →
    (walk p (prune p t)).filter keepEntry = (walk p t).filter keepEntry
  | .node fs subs => by
    simp [prune, walk, List.filter_cons, pruneSubs_walk_filter p subs]

theorem pruneSubs_walk_filter (p : String) : (subs : List (String × Tree)) →
    (walkSubs p (pruneSubs p subs)).filter keepEntry
      = (walkSubs p subs).filter keepEntry
  | [] => by simp [pruneSubs]
  | (n, t) :: rest => by
    by_cases h : strContains (p ++ "/" ++ n) "vulkan" = true
    · simp [pruneSubs, h, walkSubs, List.filter_append,
        walk_vulkan_filter (p ++ "/" ++ n) h t, pruneSubs_walk_filter p rest]
    · simp [pruneSubs, h, walkSubs, List.filter_append,
        prune_walk_filter (p ++ "/" ++ n) t, pruneSubs_walk_filter p rest]
end

/-- C1: on the input `["#ifndef USE_VULKAN\n", "gl_code();\n", "#else\n",
"vk_code();\n", "#endif\n"]` the filter of `process_file` returns exactly
`["vk_code();\n"]`: the discard-polarity body and all three directive lines
are elided and only the retain-polarity body survives. -/
theorem scenarioA_output :
    process_file ["#ifndef USE_VULKAN\n", "gl_code();\n", "#else\n",
      "vk_code();\n", "#endif\n"] = ["vk_code();\n"] := by
  decide

/-- C2 counterexample: the single line `"#else\n"` has trimmed content
starting with `'#'` and containing the else token, so by the claim's own
definition it is a directive line and should always be elided; the code
emits it unchanged (the counters are both 0, the guarded `elif` fails, and
the line falls through to the ordinary-line branch). -/
theorem else_directive_emitted_counterexample :
    process_file ["#else\n"] = ["#else\n"] ∧
    hashFirst (pyStrip "#else\n") = true ∧
    strContains (pyStrip "#else\n") "#else" = true := by
  decide

/-- C2 amended: the output of `process_file` is an ordered subsequence of
the input; lines whose trimmed content starts with `'#'` and contains an
open-discard or open-retain token never appear in the output; and lines
whose trimmed content starts with `'#'` and contains the else or end token
are elided whenever `skip_depth > 0` or `keep_depth > 0` at that point
(only unopened else/end lines pass through, as ordinary lines). -/
theorem filter_sublist_and_directive_elision :
    ∀ L : List String,
      (process_file L).Sublist L ∧
      (∀ l ∈ process_file L, hashFirst (pyStrip l) = true →
        strContains (pyStrip l) "#ifndef USE_VULKAN" = false ∧
        strContains (pyStrip l) "#ifdef USE_VULKAN" = false) ∧
      (∀ (s k : Int) (l : String), (0 < s ∨ 0 < k) →
        hashFirst (pyStrip l) = true →
        (strContains (pyStrip l) "#else" = true ∨
          strContains (pyStrip l) "#endif" = true) →
        (lineStep s k l).1 = none) := by
  intro L
  refine ⟨processFull_sublist L 0 0,
    fun l hl => processFull_no_open L 0 0 l hl, ?_⟩
  intro s k l hsk hh htok
  by_cases h1 : strContains (pyStrip l) "#ifndef USE_VULKAN" = true
  · simp [lineStep, hh, h1]
  · by_cases h2 : strContains (pyStrip l) "#ifdef USE_VULKAN" = true
    · simp [lineStep, hh, h1, h2]
    · by_cases h3 : strContains (pyStrip l) "#else" = true
      · simp only [lineStep, hh, h1, h2, h3, hsk, if_true, if_false,
          Bool.false_eq_true, and_true, true_and, if_pos]
        (repeat' split) <;> rfl
      · have h4 : strContains (pyStrip l) "#endif" = true :=
          htok.resolve_left (by simp [h3])
        simp only [lineStep, hh, h1, h2, h3, h4, hsk, if_true, if_false,
          Bool.false_eq_true, and_true, true_and, false_and, if_pos, if_neg,
          not_false_eq_true]
        (repeat' split) <;> rfl

/-- Witness for the amended C2 theorem at concrete inputs. -/
theorem filter_sublist_and_directive_elision_witness :
    (process_file ["x\n"]).Sublist ["x\n"] ∧
    strContains (pyStrip "#pragma once\n") "#ifndef USE_VULKAN" = false ∧
    (lineStep 1 0 "#else\n").1 = none :=
  ⟨(filter_sublist_and_directive_elision ["x\n"]).1,
    ((filter_sublist_and_directive_elision ["#pragma once\n"]).2.1
      "#pragma once\n" (by decide) (by decide)).1,
    (filter_sublist_and_directive_elision []).2.2 1 0 "#else\n"
      (Or.inl (by decide)) (by decide) (Or.inl (by decide))⟩

/-- C3: the filter is idempotent — applying `process_file` to its own
output yields that output unchanged, for every input line list. -/
theorem filter_idempotent :
    ∀ L : List String, process_file (process_file L) = process_file L := by
  intro L
  have h := processFull_id (process_file L)
    (fun l hl => processFull_no_open L 0 0 l hl)
  show (processFull 0 0 (process_file L)).1 = process_file L
  rw [h]

/-- C4: from any reachable state with `skip_depth = s ≥ 0`, opening a
discard block and then a nested retain block leaves `skip_depth = s + 1 > 0`
throughout, so none of the non-directive lines of the nested retain block's
body is emitted (emission requires `skip_depth == 0`, regardless of
`keep_depth`); processing resumes on the remaining lines with both
counters incremented. -/
theorem nested_retain_body_discarded :
    ∀ (s k : Int), 0 ≤ s → ∀ (d r : String) (bs rest : List String),
      isOpenDiscardLine d = true → isOpenRetainLine r = true →
      (∀ b ∈ bs, isPlainLine b = true) →
      processFull s k (d :: r :: (bs ++ rest))
        = processFull (s + 1) (k + 1) rest := by
  intro s k hs d r bs rest hd hr hbs
  have h1 := lineStep_openDiscard s k d hd
  have h2 := lineStep_openRetain (s + 1) k r hr
  have h3 := processFull_plain bs (s + 1) (k + 1) (by omega) hbs rest
  simp [processFull, h1, h2, h3]

/-- Witness for the C4 theorem at a concrete nested input. -/
theorem nested_retain_body_discarded_witness :
    processFull 0 0 ("#ifndef USE_VULKAN\n" :: "#ifdef USE_VULKAN\n" ::
        (["vk_init();\n"] ++ ["tail\n"]))
      = processFull 1 1 ["tail\n"] :=
  nested_retain_body_discarded 0 0 (by decide) "#ifndef USE_VULKAN\n"
    "#ifdef USE_VULKAN\n" ["vk_init();\n"] ["tail\n"] (by decide) (by decide)
    (by decide)

/-- C5 counterexample: the line `"#ifndef USE_VULKAN /* #else */\n"`
contains the else token and is seen while both counters are 0, yet the
first-match-wins classification treats it as open-discard: `skip_depth`
becomes 1 and the line is consumed, not emitted. -/
theorem else_token_open_line_counterexample :
    strContains (pyStrip "#ifndef USE_VULKAN /* #else */\n") "#else" = true ∧
    lineStep 0 0 "#ifndef USE_VULKAN /* #else */\n" = (none, 1, 0) ∧
    process_file ["#ifndef USE_VULKAN /* #else */\n"] = [] := by
  decide

/-- C5 amended: a line containing the else token or the end token, and
containing neither the open-discard nor the open-retain token, seen while
both counters are 0, leaves both counters unchanged and is emitted
unmodified (treated as an ordinary line, since `skip_depth == 0`). -/
theorem unopened_else_end_passthrough :
    ∀ l : String,
      (strContains (pyStrip l) "#else" = true ∨
        strContains (pyStrip l) "#endif" = true) →
      strContains (pyStrip l) "#ifndef USE_VULKAN" = false →
      strContains (pyStrip l) "#ifdef USE_VULKAN" = false →
      lineStep 0 0 l = (some l, 0, 0) ∧
      ∀ rest, process_file (l :: rest) = l :: process_file rest := by
  intro l _ h1 h2
  have hstep := lineStep_zero l h1 h2
  refine ⟨hstep, fun rest => ?_⟩
  simp [process_file, processFull, hstep]

/-- Witness for the amended C5 theorem on a stray `#endif`. -/
theorem unopened_else_end_passthrough_witness :
    process_file ["#endif\n", "x\n"] = ["#endif\n", "x\n"] := by
  have h := (unopened_else_end_passthrough "#endif\n" (Or.inr (by decide))
    (by decide) (by decide)).2 ["x\n"]
  rw [h]
  decide

/-- C6: the tree walker never selects (hence never filters or rewrites) a
file lying under a directory whose path contains `"vulkan"`: deleting
every such subtree outright — candidate-extension files included — leaves
the `files_to_process` list unchanged. -/
theorem walker_excludes_vulkan_subtrees :
    ∀ (base : String) (t : Tree),
      candidates (rendererPath base) t
        = candidates (rendererPath base) (prune (rendererPath base) t) := by
  intro base t
  unfold candidates
  rw [prune_walk_filter]

/-- C7: the driver leaves the file's lines as the filtered lines exactly
when they differ from the originals, reports the file as modified if and
only if they differ, and when the filtered lines equal the originals it
performs no write and no report. -/
theorem rewrite_iff_changed :
    ∀ L : List String,
      (driveFile L).1 = process_file L ∧
      ((driveFile L).2 = true ↔ process_file L ≠ L) ∧
      (process_file L = L → driveFile L = (L, false)) := by
  intro L
  unfold driveFile
  by_cases h : process_file L = L <;> simp [h]

/-- Witness for the C7 theorem on an unchanged file. -/
theorem rewrite_iff_changed_witness :
    driveFile ["plain\n"] = (["plain\n"], false) :=
  (rewrite_iff_changed ["plain\n"]).2.2 (by decide)

/-- C8: within one file-processing pass the counters start at `(0, 0)`
and, after processing any list of lines, both `skip_depth` and
`keep_depth` are still non-negative (every decrement is guarded by a
positivity check on that counter). -/
theorem counters_start_zero_and_stay_nonneg :
    linesState 0 0 ([] : List String) = (0, 0) ∧
    ∀ pre : List String,
      0 ≤ (linesState 0 0 pre).1 ∧ 0 ≤ (linesState 0 0 pre).2 := by
  refine ⟨rfl, fun pre => ?_⟩
  exact processFull_nonneg pre 0 0 (by omega) (by omega)

/-- C9: on an `#endif` line seen with both counters positive,
`skip_depth` is decremented in preference to `keep_depth`, even when the
most recently opened region was a retain region; consequently the properly
nested input `["#ifndef USE_VULKAN\n", "a\n", "#ifdef USE_VULKAN\n",
"b\n", "#endif\n", "c\n", "#endif\n"]` filters to `["c\n"]`. -/
theorem endif_prefers_skip :
    (∀ (s k : Int) (l : String), 0 < s → 0 < k → isEndifLine l = true →
      lineStep s k l = (none, s - 1, k)) ∧
    process_file ["#ifndef USE_VULKAN\n", "a\n", "#ifdef USE_VULKAN\n",
      "b\n", "#endif\n", "c\n", "#endif\n"] = ["c\n"] := by
  constructor
  · intro s k l hs hk hl
    unfold isEndifLine at hl
    simp only [Bool.and_eq_true, Bool.not_eq_true'] at hl
    obtain ⟨⟨⟨⟨h1, h2⟩, h3⟩, h4⟩, h5⟩ := hl
    simp [lineStep, h1, h2, h3, h4, h5, hs]
  · decide

/-- Witness for the C9 theorem at counters `(2, 1)`. -/
theorem endif_prefers_skip_witness :
    lineStep 2 1 "#endif\n" = (none, 1, 1) :=
  endif_prefers_skip.1 2 1 "#endif\n" (by decide) (by decide) (by decide)

/-- C10: a line whose trimmed content starts with `'#'` and contains the
open-discard token is always consumed with `skip_depth` incremented, one
containing the open-retain token (and not the open-discard token) is
always consumed with `keep_depth` incremented — regardless of the counter
state — and no line of the filter's output has trimmed content starting
with `'#'` and containing either open token. -/
theorem open_directives_never_emitted :
    (∀ (s k : Int) (l : String), isOpenDiscardLine l = true →
      lineStep s k l = (none, s + 1, k)) ∧
    (∀ (s k : Int) (l : String), isOpenRetainLine l = true →
      lineStep s k l = (none, s, k + 1)) ∧
    (∀ (s k : Int) (L : List String), ∀ l ∈ (processFull s k L).1,
      hashFirst (pyStrip l) = true →
      strContains (pyStrip l) "#ifndef USE_VULKAN" = false ∧
      strContains (pyStrip l) "#ifdef USE_VULKAN" = false) := by
  refine ⟨lineStep_openDiscard, lineStep_openRetain, ?_⟩
  intro s k L l hl hh
  exact processFull_no_open L s k l hl hh

/-- Witness for the C10 theorem at concrete directive lines. -/
theorem open_directives_never_emitted_witness :
    lineStep 0 0 "#ifndef USE_VULKAN\n" = (none, 1, 0) ∧
    lineStep 0 0 "#ifdef USE_VULKAN\n" = (none, 0, 1) ∧
    strContains (pyStrip "#include <q.h>\n") "#ifndef USE_VULKAN" = false :=
  ⟨open_directives_never_emitted.1 0 0 "#ifndef USE_VULKAN\n" (by decide),
    open_directives_never_emitted.2.1 0 0 "#ifdef USE_VULKAN\n" (by decide),
    (open_directives_never_emitted.2.2 0 0 ["#include <q.h>\n"]
      "#include <q.h>\n" (by decide) (by decide)).1⟩

end Cleanup
